import Mathlib

/-!
Verification development for the TableFinder utility.

The program scans every table and searchable column of a SQL Server database
for a user-supplied value.  The logic verified here is the pure core of three
modules:

* `utils.filter_and_reorder_tables` — the table order/filter planner
  (start-from rotation, skip list with exact and prefix-wildcard tokens);
* `search.search_in_table` together with `search.should_skip_column` — the
  per-table column scanner (type-based column exclusion, count-then-sample
  querying, per-column and per-table error recovery);
* the driver loop of `__main__.main` (stop-on-first policy) and the JSON
  output document built by `utils.save_results_to_file`.

Python strings are modelled as lists of characters (`PyStr`), and each Python
string primitive used by the source is translated by a structurally recursive
function on lists, so that every definition evaluates inside the kernel.
The database driver is out of scope of the source logic and is modelled by
data: for each column the list of row values satisfying the search predicate
of that column (held stable across the count query and the sample query), and
boolean flags marking the places where the driver may raise `pyodbc.Error`.
-/

/-- Python strings, modelled as lists of characters. -/
abbrev PyStr := List Char

/-- Python `str.lower()` (ASCII case folding suffices for the model). -/
def py_lower (s : PyStr) : PyStr := s.map Char.toLower

/-- Python `str.strip()`: drop leading and trailing whitespace. -/
def py_strip (s : PyStr) : PyStr :=
  ((s.dropWhile Char.isWhitespace).reverse.dropWhile Char.isWhitespace).reverse

/-- Python `str.split(sep)` for a one-character separator: `"".split(",") = [""]`
and a separator at either end produces an empty token, as in Python. -/
def split_on_char (sep : Char) : PyStr → List PyStr
  | [] => [[]]
  | c :: rest =>
    match split_on_char sep rest with
    | [] => [[]]
    | tok :: toks => if c = sep then [] :: tok :: toks else (c :: tok) :: toks

/-- Python `str.replace(c, "")`: remove every occurrence of the character. -/
def py_remove_char (c : Char) (s : PyStr) : PyStr := s.filter (fun x => !(x == c))

/-- Python `s.startswith(p)`. -/
def py_startswith (s p : PyStr) : Bool := p.isPrefixOf s

/-- Python truthiness of an optional string argument (`if s:`): `None` and the
empty string are falsy. -/
def py_truthy : Option PyStr → Option PyStr
  | none => none
  | some s => if s = [] then none else some s

/-- The expression `table.split(".")[-1].lower()` computed at both match sites
of `filter_and_reorder_tables` (src/utils.py lines 106 and 122): the bare
table name, lowercased. -/
def table_name_only (t : PyStr) : PyStr := py_lower ((split_on_char '.' t).getLastD [])

/-- The `stats` dictionary of `filter_and_reorder_tables` (src/utils.py
lines 78-84): original, skipped and final counts, the start table actually
used, and the raw comma-split skip tokens recorded for display. -/
structure FilterStats where
  original_count : Nat
  skipped_count : Nat
  final_count : Nat
  started_from : Option PyStr
  skipped_tables : List PyStr
deriving DecidableEq

/-- The skip-spec parsing loop of src/utils.py lines 90-96: each token is
stripped and lowercased; a token containing `*` contributes the token with
every `*` removed to the pattern list, any other token goes to the exact list.
Order of tokens is preserved in each list. -/
def parse_skip_tokens : List PyStr → List PyStr × List PyStr
  | [] => ([], [])
  | tok :: rest =>
    let t := py_lower (py_strip tok)
    let acc := parse_skip_tokens rest
    if t.contains '*' then (acc.1, py_remove_char '*' t :: acc.2)
    else (t :: acc.1, acc.2)

/-- Lines 87-97 of src/utils.py: when the skip spec is absent or empty nothing
is parsed; otherwise the spec is split on commas and parsed, and the raw split
is recorded in the stats. Returns ((exact list, pattern list), raw tokens). -/
def parse_skip (skip_tables : Option PyStr) : (List PyStr × List PyStr) × List PyStr :=
  match py_truthy skip_tables with
  | none => (([], []), [])
  | some s => (parse_skip_tokens (split_on_char ',' s), split_on_char ',' s)

/-- The search loop of src/utils.py lines 104-109: index of the first table
whose bare lowercased name equals `start_table`, if any. -/
def find_start_index (start_table : PyStr) : List PyStr → Option Nat
  | [] => none
  | t :: rest =>
    if table_name_only t = start_table then some 0
    else (find_start_index start_table rest).map (· + 1)

/-- Lines 100-115 of src/utils.py: when a truthy `start_from` is given and a
table matches it, rotate so that table comes first
(`tables[start_index:] + tables[:start_index]`) and record `started_from`;
otherwise leave the list unchanged. -/
def rotate_start_from (tables : List PyStr) (start_from : Option PyStr) :
    List PyStr × Option PyStr :=
  match py_truthy start_from with
  | none => (tables, none)
  | some sf =>
    match find_start_index (py_lower sf) tables with
    | none => (tables, none)
    | some i => (tables.drop i ++ tables.take i, some sf)

/-- The per-table test of the filtering loop, src/utils.py lines 121-133:
a table is kept unless its bare name is in the exact skip list or starts with
one of the skip patterns. -/
def keep_table (skip_tables_list skip_patterns : List PyStr) (t : PyStr) : Bool :=
  let name := table_name_only t
  if skip_tables_list.contains name then false
  else !(skip_patterns.any (fun pat => py_startswith name pat))

/-- `filter_and_reorder_tables` of src/utils.py lines 62-139.  Parsing, then
rotation, then filtering, then stats.  When neither skip list is non-empty the
filtering block is skipped, so `filtered = rotated.1` and the skipped count is
`rotated.1.length - filtered.length = 0`, exactly as the source leaves
`stats["skipped_count"]` at its initial `0`. -/
def filter_and_reorder_tables (tables : List PyStr)
    (start_from skip_tables : Option PyStr) : List PyStr × FilterStats :=
  let parsed := parse_skip skip_tables
  let rotated := rotate_start_from tables start_from
  let filtered :=
    if parsed.1.1.isEmpty && parsed.1.2.isEmpty then rotated.1
    else rotated.1.filter (keep_table parsed.1.1 parsed.1.2)
  (filtered,
    ⟨tables.length, rotated.1.length - filtered.length, filtered.length,
      rotated.2, parsed.2⟩)

/-- The `skip_types` list of `should_skip_column`, src/search.py line 79. -/
def skip_types : List PyStr :=
  ["image".toList, "binary".toList, "varbinary".toList, "timestamp".toList,
    "rowversion".toList, "geography".toList, "geometry".toList]

/-- `should_skip_column` of src/search.py lines 69-80. -/
def should_skip_column (data_type : PyStr) : Bool := skip_types.contains (py_lower data_type)

/-- One entry of the result list built in src/search.py lines 156-162. -/
structure MatchRecord where
  table : PyStr
  column : PyStr
  data_type : PyStr
  match_count : Nat
  sample_values : List PyStr
deriving DecidableEq

/-- One column of a table as seen through the driver: its name and data type
(from `get_table_columns`), and the driver behaviour of the two queries issued
for it by `search_in_table`: `countErr` (resp. `sampleErr`) marks a
`pyodbc.Error` raised by the count (resp. sample) query, and `rows` is the
list of row values of this column satisfying the search predicate, in table
order, held stable across the two queries (`none` is a SQL NULL). -/
structure ColumnData where
  name : PyStr
  type : PyStr
  countErr : Bool
  rows : List (Option PyStr)
  sampleErr : Bool
deriving DecidableEq

/-- One table as seen through the driver: `columnsEnum = none` models
`get_table_columns` raising `pyodbc.Error` (failure during column
enumeration), `cursorErr` models `conn.cursor()` raising at src/search.py
line 114, and `closeErr` models `cursor.close()` raising at line 168 — the
only driver failure point after the column loop. -/
structure TableData where
  schema : PyStr
  table : PyStr
  columnsEnum : Option (List ColumnData)
  cursorErr : Bool
  closeErr : Bool
deriving DecidableEq

/-- The string built at src/search.py line 115. -/
def full_table_name (schema table : PyStr) : PyStr :=
  "[".toList ++ schema ++ "].[".toList ++ table ++ "]".toList

/-- Sample-value conversion of src/search.py line 154: `str(row[0])` when the
value is not NULL, the literal placeholder string otherwise. -/
def sample_str : Option PyStr → PyStr
  | some v => v
  | none => "NULL".toList

/-- The body of the column loop of `search_in_table`, src/search.py
lines 117-166, for one column.  Returns the record produced for the column, if
any, and the number of data queries issued against the handle: the count query
is always issued (even when it fails), and the sample query is issued exactly
when the count came back positive.  A `pyodbc.Error` from either query is
caught by the inner handler at line 164 and the column yields no record. -/
def scan_column (schema table : PyStr) (col : ColumnData) : Option MatchRecord × Nat :=
  if col.countErr then (none, 1)
  else if 0 < col.rows.length then
    if col.sampleErr then (none, 2)
    else (some ⟨full_table_name schema table, col.name, col.type, col.rows.length,
      (col.rows.take 5).map sample_str⟩, 2)
  else (none, 1)

/-- The column loop of src/search.py lines 117-166: records are appended in
column order; query counts add up. -/
def scan_columns (schema table : PyStr) : List ColumnData → List MatchRecord × Nat
  | [] => ([], 0)
  | col :: rest =>
    let cur := scan_column schema table col
    let acc := scan_columns schema table rest
    (cur.1.toList ++ acc.1, cur.2 + acc.2)

/-- `search_in_table` of src/search.py lines 83-174, returning the result list
and the number of data queries issued.  `results = []` is returned when column
enumeration fails (outer handler, line 170), when no searchable columns remain
(line 112, before any query), or when `conn.cursor()` fails.  After the column
loop the source runs `cursor.close()`; a `pyodbc.Error` there is caught by the
same outer handler, which falls through to `return results` at line 174, so
the accumulated records are returned whether or not the close fails — hence
`closeErr` does not influence the value. -/
def search_in_table (t : TableData) : List MatchRecord × Nat :=
  match t.columnsEnum with
  | none => ([], 0)
  | some columns =>
    let searchable := columns.filter (fun col => !should_skip_column col.type)
    if searchable.isEmpty then ([], 0)
    else if t.cursorErr then ([], 0)
    else scan_columns t.schema t.table searchable

/-- The driver loop of src/__main__.py lines 98-118, abstracted over the
per-table scan.  `acc` is `all_results`; after each table completes its
results are appended and, when the stop-on-first flag is set and the
accumulated list is non-empty, the loop breaks.  The second component is the
list of tables actually scanned, in order.  The check sits after the whole
per-table scan, so a table is always scanned in full before the flag is
consulted. -/
def run_loop (scan : PyStr → List MatchRecord) (stop_on_first : Bool) :
    List MatchRecord → List PyStr → List MatchRecord × List PyStr
  | acc, [] => (acc, [])
  | acc, t :: rest =>
    let acc2 := acc ++ scan t
    if stop_on_first && !acc2.isEmpty then (acc2, [t])
    else
      let next := run_loop scan stop_on_first acc2 rest
      (next.1, t :: next.2)

/-- The driver loop started with an empty `all_results`. -/
def run_search (scan : PyStr → List MatchRecord) (stop_on_first : Bool)
    (tables : List PyStr) : List MatchRecord × List PyStr :=
  run_loop scan stop_on_first [] tables

/-- JSON values, for the output document written by `save_results_to_file`
(src/utils.py lines 40-59).  The textual layer (`json.dump` / `json.load`) is
the Python standard library, an external collaborator; the document structure
is modelled at the JSON-value level. -/
inductive Json where
  | str (s : PyStr)
  | num (n : Int)
  | arr (xs : List Json)
  | obj (fields : List (PyStr × Json))

/-- The dictionary appended to `results` at src/search.py lines 156-162, as
the JSON object serialized for that record. -/
def encode_record (r : MatchRecord) : Json :=
  .obj [("table".toList, .str r.table), ("column".toList, .str r.column),
    ("data_type".toList, .str r.data_type),
    ("match_count".toList, .num r.match_count),
    ("sample_values".toList, .arr (r.sample_values.map Json.str))]

/-- The `output_data` dictionary of `save_results_to_file`, src/utils.py
lines 49-54. -/
def output_data (search_value timestamp : PyStr) (results : List MatchRecord) : Json :=
  .obj [("search_value".toList, .str search_value),
    ("timestamp".toList, .str timestamp),
    ("total_matches".toList, .num results.length),
    ("results".toList, .arr (results.map encode_record))]

/-- Field lookup in a parsed JSON object. -/
def get_field : List (PyStr × Json) → PyStr → Option Json
  | [], _ => none
  | (k, v) :: rest, key => if k = key then some v else get_field rest key

/-- Read back a JSON string. -/
def as_str : Json → Option PyStr
  | .str s => some s
  | _ => none

/-- Read back a non-negative JSON integer. -/
def as_nat : Json → Option Nat
  | .num n => if n < 0 then none else some n.toNat
  | _ => none

/-- Read back a JSON array. -/
def as_arr : Json → Option (List Json)
  | .arr xs => some xs
  | _ => none

/-- Parse a list of JSON strings. -/
def decode_strings : List Json → Option (List PyStr)
  | [] => some []
  | j :: rest => do
    let s ← as_str j
    let ss ← decode_strings rest
    pure (s :: ss)

/-- Parse one MatchRecord back out of its JSON object. -/
def decode_record (j : Json) : Option MatchRecord := do
  let fields ← match j with | .obj fields => some fields | _ => none
  let tb ← get_field fields "table".toList >>= as_str
  let cl ← get_field fields "column".toList >>= as_str
  let dt ← get_field fields "data_type".toList >>= as_str
  let mc ← get_field fields "match_count".toList >>= as_nat
  let svj ← get_field fields "sample_values".toList >>= as_arr
  let sv ← decode_strings svj
  pure ⟨tb, cl, dt, mc, sv⟩

/-- Parse a list of MatchRecords. -/
def decode_records : List Json → Option (List MatchRecord)
  | [] => some []
  | j :: rest => do
    let r ← decode_record j
    let rs ← decode_records rest
    pure (r :: rs)

/-- Parse the output document back: its `total_matches` field and its
`results` array. -/
def parse_output (j : Json) : Option (Nat × List MatchRecord) := do
  let fields ← match j with | .obj fields => some fields | _ => none
  let tm ← get_field fields "total_matches".toList >>= as_nat
  let rj ← get_field fields "results".toList >>= as_arr
  let rs ← decode_records rj
  pure (tm, rs)

/-! Helper lemmas. -/

theorem split_on_char_ne_nil (sep : Char) (s : PyStr) : split_on_char sep s ≠ [] := by
  cases s with
  | nil => simp [split_on_char]
  | cons c rest =>
    cases h : split_on_char sep rest with
    | nil => simp [split_on_char, h]
    | cons tok toks =>
      simp only [split_on_char, h]
      split <;> simp

theorem parse_skip_tokens_length (toks : List PyStr) :
    (parse_skip_tokens toks).1.length + (parse_skip_tokens toks).2.length = toks.length := by
  induction toks with
  | nil => simp [parse_skip_tokens]
  | cons tok rest ih =>
    simp only [parse_skip_tokens]
    split <;> simp <;> omega

theorem mem_exact_of_parse (toks : List PyStr) (tok : PyStr) (hmem : tok ∈ toks)
    (hstar : (py_lower (py_strip tok)).contains '*' = false) :
    py_lower (py_strip tok) ∈ (parse_skip_tokens toks).1 := by
  induction toks with
  | nil => simp at hmem
  | cons hd rest ih =>
    rcases List.mem_cons.mp hmem with h | h
    · subst h
      simp only [parse_skip_tokens, hstar]
      simp
    · simp only [parse_skip_tokens]
      split <;> simp [ih h]

theorem mem_pattern_of_parse (toks : List PyStr) (tok : PyStr) (hmem : tok ∈ toks)
    (hstar : (py_lower (py_strip tok)).contains '*' = true) :
    py_remove_char '*' (py_lower (py_strip tok)) ∈ (parse_skip_tokens toks).2 := by
  induction toks with
  | nil => simp at hmem
  | cons hd rest ih =>
    rcases List.mem_cons.mp hmem with h | h
    · subst h
      simp only [parse_skip_tokens, hstar]
      simp
    · simp only [parse_skip_tokens]
      split <;> simp [ih h]

theorem rotate_length (tables : List PyStr) (start_from : Option PyStr) :
    (rotate_start_from tables start_from).1.length = tables.length := by
  unfold rotate_start_from
  cases py_truthy start_from with
  | none => rfl
  | some sf =>
    cases h : find_start_index (py_lower sf) tables with
    | none => simp [h]
    | some i =>
      simp [h]
      omega

theorem planner_count (tables : List PyStr) (start_from skip_tables : Option PyStr) :
    (filter_and_reorder_tables tables start_from skip_tables).2.final_count
      + (filter_and_reorder_tables tables start_from skip_tables).2.skipped_count
      = (filter_and_reorder_tables tables start_from skip_tables).2.original_count := by
  have hle := List.length_filter_le
    (keep_table (parse_skip skip_tables).1.1 (parse_skip skip_tables).1.2)
    (rotate_start_from tables start_from).1
  have hr := rotate_length tables start_from
  by_cases hc : ((parse_skip skip_tables).1.1.isEmpty && (parse_skip skip_tables).1.2.isEmpty) = true
  · simp [filter_and_reorder_tables, hc, hr]
  · simp [filter_and_reorder_tables, hc]
    omega

/-- C10: calling the planner with no startFrom and no skip spec is the
identity: the returned list equals the input list in order, and the stats are
skippedCount = 0, startedFrom = None, empty skippedPatterns, and
finalCount = originalCount = length of the input. -/
theorem C10_planner_identity (tables : List PyStr) :
    filter_and_reorder_tables tables none none =
      (tables, ⟨tables.length, 0, tables.length, none, []⟩) := by
  simp [filter_and_reorder_tables, parse_skip, py_truthy, rotate_start_from]

/-- C2 counterexample: a table scan in which the only table-level driver
failure point after column enumeration (`cursor.close()`, marked by
`closeErr = true`) fails, after one column already produced a record.  The
claim says the partial MatchRecords are discarded and the table returns an
empty result; the code returns the accumulated record. -/
theorem C2_counterexample :
    (search_in_table ⟨"s".toList, "t".toList,
        some [⟨"c".toList, "varchar".toList, false, [some ("x".toList)], false⟩],
        false, true⟩).1
      = [⟨full_table_name ("s".toList) ("t".toList), "c".toList, "varchar".toList, 1,
          ["x".toList]⟩]
    ∧ (search_in_table ⟨"s".toList, "t".toList,
        some [⟨"c".toList, "varchar".toList, false, [some ("x".toList)], false⟩],
        false, true⟩).1 ≠ [] := by
  constructor
  · decide
  · decide

/-- C2 amended: a table-level driver failure is caught and never aborts the
run, but `search_in_table` returns the partial per-column MatchRecords
accumulated before the failure rather than discarding them.  Concretely:
a `cursor.close()` failure (the only table-level failure point after the
column loop) leaves the result unchanged — the accumulated records of the
searchable columns are returned; the result is empty exactly when the failure
precedes any accumulation: during column enumeration or when opening the
cursor. -/
theorem C2_partial_results_returned :
    (∀ (schema table : PyStr) (cols : Option (List ColumnData)) (ce b1 b2 : Bool),
      search_in_table ⟨schema, table, cols, ce, b1⟩
        = search_in_table ⟨schema, table, cols, ce, b2⟩)
    ∧ (∀ (schema table : PyStr) (cols : List ColumnData),
      (cols.filter (fun col => !should_skip_column col.type)).isEmpty = false →
      search_in_table ⟨schema, table, some cols, false, true⟩
        = scan_columns schema table (cols.filter (fun col => !should_skip_column col.type)))
    ∧ (∀ (schema table : PyStr) (ce cl : Bool),
      search_in_table ⟨schema, table, none, ce, cl⟩ = ([], 0))
    ∧ (∀ (schema table : PyStr) (cols : List ColumnData) (cl : Bool),
      search_in_table ⟨schema, table, some cols, true, cl⟩ = ([], 0)) := by
  refine ⟨fun schema table cols ce b1 b2 => rfl, fun schema table cols h => ?_,
    fun schema table ce cl => rfl, fun schema table cols cl => ?_⟩
  · simp [search_in_table, h]
  · simp only [search_in_table]
    split <;> rfl

/-- C2 amended witness at a concrete input: one searchable column with one
matching row, close failure flagged. -/
theorem C2_amended_witness :
    search_in_table ⟨"s".toList, "t".toList,
        some [⟨"c".toList, "varchar".toList, false, [some ("x".toList)], false⟩],
        false, true⟩
      = scan_columns ("s".toList) ("t".toList)
          ([⟨"c".toList, "varchar".toList, false, [some ("x".toList)], false⟩].filter
            (fun col => !should_skip_column col.type)) :=
  C2_partial_results_returned.2.1 ("s".toList) ("t".toList)
    [⟨"c".toList, "varchar".toList, false, [some ("x".toList)], false⟩] (by decide)

/-- C7: for a table all of whose columns have excluded data types, the scan
returns an empty sequence and issues zero count/sample queries against the
handle (the second component of `search_in_table` counts those queries). -/
theorem C7_all_excluded_no_queries (t : TableData) (cols : List ColumnData)
    (henum : t.columnsEnum = some cols)
    (hall : ∀ col ∈ cols, should_skip_column col.type = true) :
    search_in_table t = ([], 0) := by
  have hfilter : cols.filter (fun col => !should_skip_column col.type) = [] := by
    rw [List.filter_eq_nil_iff]
    intro a ha
    simp [hall a ha]
  obtain ⟨schema, table, ce, cre, cle⟩ := t
  simp only at henum
  subst henum
  simp [search_in_table, hfilter]

/-- C7 witness: a table whose columns are all of excluded types (checked
case-insensitively) is scanned to an empty result with zero queries. -/
theorem C7_witness :
    search_in_table ⟨"s".toList, "t".toList,
        some [⟨"a".toList, "IMAGE".toList, false, [some ("x".toList)], false⟩,
          ⟨"b".toList, "Geometry".toList, false, [], false⟩,
          ⟨"c".toList, "rowversion".toList, true, [some ("y".toList)], true⟩],
        false, false⟩ = ([], 0) :=
  C7_all_excluded_no_queries _ _ rfl (by decide)

/-- C6: with the stop-on-first flag set, the driver loop scans tables in
planned order, checks only after a whole table scan completes, and stops at
the first table whose scan yields at least one MatchRecord: the tables visited
are exactly the non-matching prefix plus that first matching table, the tables
after it are never scanned, and the accumulated results are exactly that
table's records. -/
theorem C6_stop_on_first (scan : PyStr → List MatchRecord) (pre : List PyStr)
    (t : PyStr) (post : List PyStr)
    (hpre : ∀ p ∈ pre, scan p = []) (ht : scan t ≠ []) :
    run_search scan true (pre ++ t :: post) = (scan t, pre ++ [t]) := by
  unfold run_search
  induction pre with
  | nil =>
    simp only [List.nil_append, run_loop]
    have hne : (scan t).isEmpty = false := by
      simp [List.isEmpty_iff, ht]
    simp [hne]
  | cons p rest ih =>
    have hp : scan p = [] := hpre p (List.mem_cons_self p rest)
    have ihr := ih (fun q hq => hpre q (List.mem_cons_of_mem p hq))
    simp [run_loop, hp, ihr]

/-- C6 witness: three tables, the middle one matching; the run stops there and
the last table is never scanned. -/
theorem C6_witness :
    run_search
      (fun tb => if tb = "m.t".toList
        then [⟨"[m].[t]".toList, "c".toList, "varchar".toList, 1, ["v".toList]⟩]
        else [])
      true ["a.b".toList, "m.t".toList, "z.z".toList]
    = ([⟨"[m].[t]".toList, "c".toList, "varchar".toList, 1, ["v".toList]⟩],
        ["a.b".toList, "m.t".toList]) :=
  (C6_stop_on_first
    (fun tb => if tb = "m.t".toList
      then [⟨"[m].[t]".toList, "c".toList, "varchar".toList, 1, ["v".toList]⟩]
      else [])
    ["a.b".toList] ("m.t".toList) ["z.z".toList] (by decide) (by decide)).trans
    (by decide)

/-- C9: a skip token consisting only of star characters (its stripped,
lowered form contains a star and removing every star leaves nothing) yields
the empty prefix, which every bare table name starts with, so the planner
returns an empty table list and a skipped count equal to the original count —
whatever the other tokens and the start-from argument are. -/
theorem C9_star_only_token_skips_all (tables : List PyStr) (start_from : Option PyStr)
    (s tok : PyStr) (hmem : tok ∈ split_on_char ',' s)
    (hstar : (py_lower (py_strip tok)).contains '*' = true)
    (hempty : py_remove_char '*' (py_lower (py_strip tok)) = []) :
    (filter_and_reorder_tables tables start_from (some s)).1 = []
    ∧ (filter_and_reorder_tables tables start_from (some s)).2.skipped_count
        = tables.length := by
  have hs : s ≠ [] := by
    intro h
    subst h
    simp [split_on_char] at hmem
    subst hmem
    simp [py_strip, py_lower, List.contains] at hstar
  have hpat : ([] : PyStr) ∈ (parse_skip_tokens (split_on_char ',' s)).2 := by
    have := mem_pattern_of_parse (split_on_char ',' s) tok hmem hstar
    rwa [hempty] at this
  have hparse : parse_skip (some s) = (parse_skip_tokens (split_on_char ',' s),
      split_on_char ',' s) := by
    simp [parse_skip, py_truthy, hs]
  have hcond : ((parse_skip (some s)).1.1.isEmpty && (parse_skip (some s)).1.2.isEmpty)
      = false := by
    rw [hparse]
    have : (parse_skip_tokens (split_on_char ',' s)).2 ≠ [] :=
      List.ne_nil_of_mem hpat
    simp [List.isEmpty_iff, this]
  have hkeep : ∀ t ∈ (rotate_start_from tables start_from).1,
      keep_table (parse_skip (some s)).1.1 (parse_skip (some s)).1.2 t = false := by
    intro t _
    simp only [keep_table]
    split
    · rfl
    · have hany : (parse_skip (some s)).1.2.any
          (fun pat => py_startswith (table_name_only t) pat) = true := by
        apply List.any_eq_true.mpr
        refine ⟨[], ?_, ?_⟩
        · rw [hparse]
          exact hpat
        · simp [py_startswith, List.isPrefixOf]
      simp [hany]
  have hfilter : (rotate_start_from tables start_from).1.filter
      (keep_table (parse_skip (some s)).1.1 (parse_skip (some s)).1.2) = [] := by
    rw [List.filter_eq_nil_iff]
    intro a ha
    simp [hkeep a ha]
  constructor
  · simp [filter_and_reorder_tables, hcond, hfilter]
  · simp [filter_and_reorder_tables, hcond, hfilter, rotate_length]

/-- C9 witness: the single token of the spec is a bare star; every table is
skipped. -/
theorem C9_witness :
    (filter_and_reorder_tables ["hr.employees".toList, "sales.orders".toList] none
        (some ("*".toList))).1 = []
    ∧ (filter_and_reorder_tables ["hr.employees".toList, "sales.orders".toList] none
        (some ("*".toList))).2.skipped_count = 2 :=
  C9_star_only_token_skips_all ["hr.employees".toList, "sales.orders".toList] none
    ("*".toList) ("*".toList) (by decide) (by decide) (by decide)

/-- C1 counterexample: for the skip token "a*b" the claim says only the text
before the first star ("a") is the prefix and the suffix is ignored, so the
table "s.ac" (bare name "ac", which starts with "a") should be removed; the
code removes every star and matches the prefix "ab", so "s.ac" survives. -/
theorem C1_counterexample :
    (filter_and_reorder_tables ["s.ac".toList] none (some ("a*b".toList))).1
      = ["s.ac".toList]
    ∧ py_startswith (table_name_only ("s.ac".toList)) ("a".toList) = true := by
  constructor
  · decide
  · decide

/-- C1 amended: for a skip spec that is a single token containing a star, the
prefix matched against the bare table name is the stripped, lowercased token
with every star removed — text after a star is concatenated into the prefix,
not ignored.  The planner keeps exactly the tables whose bare name does not
start with that prefix; for a token of the form "abc*" (star only at the end)
this removes exactly the tables whose bare name starts with "abc",
case-insensitively, and no others. -/
theorem C1_pattern_removes_prefix_matches (tables : List PyStr) (s : PyStr)
    (hsplit : split_on_char ',' s = [s])
    (hstar : (py_lower (py_strip s)).contains '*' = true) :
    (filter_and_reorder_tables tables none (some s)).1 =
      tables.filter (fun t => !(py_startswith (table_name_only t)
        (py_remove_char '*' (py_lower (py_strip s))))) := by
  have hs : s ≠ [] := by
    intro h
    subst h
    simp [py_strip, py_lower, List.contains] at hstar
  have hparse : parse_skip (some s) =
      (([], [py_remove_char '*' (py_lower (py_strip s))]), [s]) := by
    simp [parse_skip, py_truthy, hs, hsplit, parse_skip_tokens, hstar]
    simpa using hstar
  simp only [filter_and_reorder_tables, hparse, rotate_start_from, py_truthy,
    List.isEmpty_nil, List.isEmpty_cons, Bool.and_false, Bool.false_eq_true,
    if_false]
  apply List.filter_congr
  intro t _
  simp [keep_table]

/-- C1 witness: skip spec "abc*" removes exactly the tables whose bare name
starts with "abc" case-insensitively ("x.abcde" and "z.ABCq") and keeps
"y.zz". -/
theorem C1_witness :
    (filter_and_reorder_tables ["x.abcde".toList, "y.zz".toList, "z.ABCq".toList]
        none (some ("abc*".toList))).1 = ["y.zz".toList] :=
  (C1_pattern_removes_prefix_matches
    ["x.abcde".toList, "y.zz".toList, "z.ABCq".toList] ("abc*".toList)
    (by decide) (by decide)).trans (by decide)

/-- Completeness of `find_start_index`: when no table matches, it finds
nothing. -/
theorem find_start_index_eq_none (st : PyStr) (l : List PyStr)
    (h : ∀ t ∈ l, table_name_only t ≠ st) : find_start_index st l = none := by
  induction l with
  | nil => rfl
  | cons hd tl ih =>
    have hhd := h hd (List.mem_cons_self hd tl)
    simp only [find_start_index, hhd, if_false]
    rw [ih (fun t ht => h t (List.mem_cons_of_mem hd ht))]
    rfl

/-- Soundness of `find_start_index`: it returns the first matching index. -/
theorem find_start_index_eq_some (st : PyStr) (l : List PyStr) (i : Nat)
    (hi : i < l.length) (hmatch : table_name_only (l.getD i []) = st)
    (hfirst : ∀ j, j < i → table_name_only (l.getD j []) ≠ st) :
    find_start_index st l = some i := by
  induction l generalizing i with
  | nil => simp at hi
  | cons hd tl ih =>
    cases i with
    | zero =>
      simp only [List.getD_cons_zero] at hmatch
      simp [find_start_index, hmatch]
    | succ n =>
      have hhd : table_name_only hd ≠ st := by
        have := hfirst 0 (Nat.succ_pos n)
        simpa using this
      simp only [find_start_index, hhd, if_false]
      rw [ih n (by simpa using hi) (by simpa using hmatch)
        (fun j hj => by simpa using hfirst (j + 1) (Nat.succ_lt_succ hj))]
      rfl

/-- C3 counterexample: with the empty startFrom string and a table whose bare
name is empty ("x.", at index 1, with no earlier match), the claim demands
the rotation `tables[1:] + tables[:1]`; the code treats the empty string as
"no start-from given" and returns the list unchanged. -/
theorem C3_counterexample :
    (filter_and_reorder_tables ["a.b".toList, "x.".toList] (some ("".toList)) none).1
      = ["a.b".toList, "x.".toList]
    ∧ table_name_only ("x.".toList) = py_lower ("".toList)
    ∧ table_name_only ("a.b".toList) ≠ py_lower ("".toList)
    ∧ ["a.b".toList, "x.".toList].drop 1 ++ ["a.b".toList, "x.".toList].take 1
        ≠ ["a.b".toList, "x.".toList] := by
  refine ⟨by decide, by decide, by decide, by decide⟩

/-- C3 amended: for every table list and every non-empty startFrom string the
rotation is a true rotation: the output is a permutation of the input; if
index i holds the first table whose bare name equals startFrom
case-insensitively, the output is `tables.drop i ++ tables.take i` (the
matched table first); if no table matches, the output is the input unchanged.
The empty startFrom string is treated by the code like an absent argument and
never rotates. -/
theorem C3_rotation (tables : List PyStr) (sf : PyStr) (hsf : sf ≠ []) :
    ((filter_and_reorder_tables tables (some sf) none).1).Perm tables
    ∧ (∀ i, i < tables.length →
        table_name_only (tables.getD i []) = py_lower sf →
        (∀ j, j < i → table_name_only (tables.getD j []) ≠ py_lower sf) →
        (filter_and_reorder_tables tables (some sf) none).1 =
          tables.drop i ++ tables.take i)
    ∧ ((∀ t ∈ tables, table_name_only t ≠ py_lower sf) →
        (filter_and_reorder_tables tables (some sf) none).1 = tables) := by
  have hout : (filter_and_reorder_tables tables (some sf) none).1
      = (rotate_start_from tables (some sf)).1 := by
    simp [filter_and_reorder_tables, parse_skip, py_truthy]
  refine ⟨?_, ?_, ?_⟩
  · rw [hout]
    unfold rotate_start_from
    simp only [py_truthy, hsf, if_false, reduceCtorEq]
    cases h : find_start_index (py_lower sf) tables with
    | none => exact List.Perm.refl tables
    | some i =>
      simp only
      have h2 : tables.take i ++ tables.drop i = tables := List.take_append_drop i tables
      conv_rhs => rw [← h2]
      exact List.perm_append_comm
  · intro i hi hmatch hfirst
    rw [hout]
    unfold rotate_start_from
    simp [py_truthy, hsf, find_start_index_eq_some (py_lower sf) tables i hi hmatch hfirst]
  · intro hnone
    rw [hout]
    unfold rotate_start_from
    simp [py_truthy, hsf, find_start_index_eq_none (py_lower sf) tables hnone]

/-- C3 witness: the spec scenario — start-from "orders" rotates
["hr.employees","hr.payroll","sales.orders"] to
["sales.orders","hr.employees","hr.payroll"]. -/
theorem C3_witness :
    (filter_and_reorder_tables
        ["hr.employees".toList, "hr.payroll".toList, "sales.orders".toList]
        (some ("orders".toList)) none).1
      = ["sales.orders".toList, "hr.employees".toList, "hr.payroll".toList] :=
  ((C3_rotation ["hr.employees".toList, "hr.payroll".toList, "sales.orders".toList]
      ("orders".toList) (by decide)).2.1 2 (by decide) (by decide)
      (fun j hj => by interval_cases j <;> decide)).trans (by decide)

/-- C4 counterexample: the table "x.a*b" has a bare name that exactly matches
the skip token "a*b" (case-insensitively, after trimming), yet it appears in
the output: the token contains a star, so the code turns it into the prefix
"ab", which "a*b" does not start with, and the exact-match list never sees
it. -/
theorem C4_counterexample :
    (filter_and_reorder_tables ["x.a*b".toList] none (some ("a*b".toList))).1
      = ["x.a*b".toList]
    ∧ table_name_only ("x.a*b".toList) = py_lower (py_strip ("a*b".toList)) := by
  refine ⟨by decide, by decide⟩

/-- C4 amended: for every table list and every non-empty skip spec, the
planner stats satisfy finalCount + skippedCount = originalCount (rotation does
not change the count), and no table whose bare name exactly matches a
star-free skip token (case-insensitively, after trimming) appears in the
output list.  (A table whose bare name itself contains a star can exactly
match a star-carrying token and still survive, as the counterexample shows,
so the exact-match guarantee is restricted to the tokens the code treats as
exact matchers: those without a star.) -/
theorem C4_count_and_exact_skip (tables : List PyStr) (start_from : Option PyStr)
    (s : PyStr) (hs : s ≠ []) :
    (filter_and_reorder_tables tables start_from (some s)).2.final_count
      + (filter_and_reorder_tables tables start_from (some s)).2.skipped_count
      = (filter_and_reorder_tables tables start_from (some s)).2.original_count
    ∧ (∀ t ∈ (filter_and_reorder_tables tables start_from (some s)).1,
        ∀ tok ∈ split_on_char ',' s,
          (py_lower (py_strip tok)).contains '*' = false →
          table_name_only t ≠ py_lower (py_strip tok)) := by
  refine ⟨planner_count tables start_from (some s), ?_⟩
  intro t ht tok htok hnostar
  have hexact : py_lower (py_strip tok) ∈ (parse_skip_tokens (split_on_char ',' s)).1 :=
    mem_exact_of_parse (split_on_char ',' s) tok htok hnostar
  have hparse : parse_skip (some s) = (parse_skip_tokens (split_on_char ',' s),
      split_on_char ',' s) := by
    simp [parse_skip, py_truthy, hs]
  have hcond : ((parse_skip (some s)).1.1.isEmpty && (parse_skip (some s)).1.2.isEmpty)
      = false := by
    rw [hparse]
    have hne : (parse_skip_tokens (split_on_char ',' s)).1 ≠ [] :=
      List.ne_nil_of_mem hexact
    simp [List.isEmpty_iff, hne]
  rw [show (filter_and_reorder_tables tables start_from (some s)).1
      = (rotate_start_from tables start_from).1.filter
          (keep_table (parse_skip (some s)).1.1 (parse_skip (some s)).1.2) by
    simp [filter_and_reorder_tables, hcond]] at ht
  have hkeep : keep_table (parse_skip (some s)).1.1 (parse_skip (some s)).1.2 t = true :=
    (List.mem_filter.mp ht).2
  simp only [keep_table] at hkeep
  intro heq
  have hmem : (parse_skip (some s)).1.1.contains (table_name_only t) = true := by
    rw [hparse, heq]
    exact List.elem_eq_true_of_mem hexact
  rw [if_pos hmem] at hkeep
  exact Bool.false_ne_true hkeep

/-- C4 witness: the spec scenario — skip list "payroll" removes "hr.payroll",
the stats add up, and the surviving tables match no exact token. -/
theorem C4_witness :
    ((filter_and_reorder_tables
        ["hr.employees".toList, "hr.payroll".toList, "sales.orders".toList]
        none (some ("payroll".toList))).2.final_count
      + (filter_and_reorder_tables
        ["hr.employees".toList, "hr.payroll".toList, "sales.orders".toList]
        none (some ("payroll".toList))).2.skipped_count
      = (filter_and_reorder_tables
        ["hr.employees".toList, "hr.payroll".toList, "sales.orders".toList]
        none (some ("payroll".toList))).2.original_count)
    ∧ (∀ t ∈ (filter_and_reorder_tables
        ["hr.employees".toList, "hr.payroll".toList, "sales.orders".toList]
        none (some ("payroll".toList))).1,
        ∀ tok ∈ split_on_char ',' ("payroll".toList),
          (py_lower (py_strip tok)).contains '*' = false →
          table_name_only t ≠ py_lower (py_strip tok)) :=
  C4_count_and_exact_skip
    ["hr.employees".toList, "hr.payroll".toList, "sales.orders".toList]
    none ("payroll".toList) (by decide)

/-- Characterization of a successful column scan: a record is produced exactly
in the branch where the count query succeeded with a positive count and the
sample query succeeded, and its fields are determined by the column. -/
theorem scan_column_eq_some (schema table : PyStr) (col : ColumnData) (r : MatchRecord)
    (h : (scan_column schema table col).1 = some r) :
    0 < col.rows.length ∧
    r = ⟨full_table_name schema table, col.name, col.type, col.rows.length,
      (col.rows.take 5).map sample_str⟩ := by
  unfold scan_column at h
  split_ifs at h with h1 h2 h3
  all_goals simp_all

/-- Every record of the column loop comes from some column of the list. -/
theorem mem_scan_columns (schema table : PyStr) (cs : List ColumnData) (r : MatchRecord)
    (h : r ∈ (scan_columns schema table cs).1) :
    ∃ col ∈ cs, (scan_column schema table col).1 = some r := by
  induction cs with
  | nil => simp [scan_columns] at h
  | cons c rest ih =>
    simp only [scan_columns] at h
    rcases List.mem_append.mp h with h | h
    · exact ⟨c, List.mem_cons_self c rest,
        by simpa [Option.mem_toList, Option.mem_def] using h⟩
    · obtain ⟨col, hmem, hcol⟩ := ih h
      exact ⟨col, List.mem_cons_of_mem c hmem, hcol⟩

/-- A column of the list that produces a record contributes it to the column
loop's output. -/
theorem scan_columns_mem (schema table : PyStr) (cs : List ColumnData)
    (col : ColumnData) (r : MatchRecord) (hc : col ∈ cs)
    (h : (scan_column schema table col).1 = some r) :
    r ∈ (scan_columns schema table cs).1 := by
  induction cs with
  | nil => simp at hc
  | cons c rest ih =>
    simp only [scan_columns]
    rcases List.mem_cons.mp hc with hh | hh
    · subst hh
      exact List.mem_append.mpr (Or.inl (by simp [h]))
    · exact List.mem_append.mpr (Or.inr (ih hh))

/-- Every record of a table scan comes from some searchable column of the
enumerated list. -/
theorem search_in_table_mem (t : TableData) (r : MatchRecord)
    (h : r ∈ (search_in_table t).1) :
    ∃ cols, t.columnsEnum = some cols ∧
      ∃ col ∈ cols.filter (fun c => !should_skip_column c.type),
        (scan_column t.schema t.table col).1 = some r := by
  obtain ⟨schema, table, cEnum, cre, cle⟩ := t
  cases cEnum with
  | none => simp [search_in_table] at h
  | some cols =>
    refine ⟨cols, rfl, ?_⟩
    simp only [search_in_table] at h
    split_ifs at h with h1 h2
    · simp at h
    · simp at h
    · exact mem_scan_columns _ _ _ _ h

/-- C5: every MatchRecord produced by a table scan has a positive match count
and a sample list of length at most the match count and at most five; every
searchable column whose two queries succeed with at least five matching rows
contributes a record with the exact row count and exactly five samples; and a
column with zero matching rows produces no record (and no sample query). -/
theorem C5_record_invariants :
    (∀ (t : TableData) (r : MatchRecord), r ∈ (search_in_table t).1 →
      0 < r.match_count ∧ r.sample_values.length ≤ r.match_count
        ∧ r.sample_values.length ≤ 5)
    ∧ (∀ (t : TableData) (cols : List ColumnData) (col : ColumnData),
      t.columnsEnum = some cols → t.cursorErr = false → col ∈ cols →
      should_skip_column col.type = false → col.countErr = false →
      col.sampleErr = false → 5 ≤ col.rows.length →
      ∃ r ∈ (search_in_table t).1,
        r.column = col.name ∧ r.match_count = col.rows.length
          ∧ r.sample_values.length = 5)
    ∧ (∀ (schema table : PyStr) (col : ColumnData), col.rows.length = 0 →
      (scan_column schema table col).1 = none) := by
  refine ⟨?_, ?_, ?_⟩
  · intro t r h
    obtain ⟨cols, _, col, _, hsc⟩ := search_in_table_mem t r h
    obtain ⟨hpos, hr⟩ := scan_column_eq_some _ _ _ _ hsc
    subst hr
    simp only [List.length_map, List.length_take]
    omega
  · intro t cols col henum hcursor hcol hskip hcerr hserr h5
    obtain ⟨schema, table, cEnum, cre, cle⟩ := t
    simp only at henum hcursor
    subst henum
    subst hcursor
    have hsearchable : col ∈ cols.filter (fun c => !should_skip_column c.type) :=
      List.mem_filter.mpr ⟨hcol, by simp [hskip]⟩
    have hpos : 0 < col.rows.length := by omega
    have hsc : (scan_column schema table col).1 =
        some ⟨full_table_name schema table, col.name, col.type, col.rows.length,
          (col.rows.take 5).map sample_str⟩ := by
      simp [scan_column, hcerr, hserr, hpos]
    have hne : (cols.filter (fun c => !should_skip_column c.type)).isEmpty = false := by
      cases hcase : (cols.filter (fun c => !should_skip_column c.type)).isEmpty with
      | false => rfl
      | true =>
        rw [List.isEmpty_iff] at hcase
        rw [hcase] at hsearchable
        simp at hsearchable
    refine ⟨⟨full_table_name schema table, col.name, col.type, col.rows.length,
      (col.rows.take 5).map sample_str⟩, ?_, rfl, rfl, ?_⟩
    · simp only [search_in_table, hne, Bool.false_eq_true, if_false]
      exact scan_columns_mem schema table _ col _ hsearchable hsc
    · simp only [List.length_map, List.length_take]
      omega
  · intro schema table col h
    unfold scan_column
    split_ifs with h1 h2 h3 <;> simp_all

/-- C5 witness: a varchar column with six matching rows (one NULL) produces
the record with match count 6 and exactly five samples; membership, bounds,
and the zero-row case are all checked on concrete data. -/
theorem C5_witness :
    (0 < (⟨"[s].[t]".toList, "c".toList, "varchar".toList, 6,
        ["1".toList, "NULL".toList, "3".toList, "4".toList, "5".toList]⟩
          : MatchRecord).match_count
      ∧ (⟨"[s].[t]".toList, "c".toList, "varchar".toList, 6,
        ["1".toList, "NULL".toList, "3".toList, "4".toList, "5".toList]⟩
          : MatchRecord).sample_values.length
        ≤ (⟨"[s].[t]".toList, "c".toList, "varchar".toList, 6,
        ["1".toList, "NULL".toList, "3".toList, "4".toList, "5".toList]⟩
          : MatchRecord).match_count
      ∧ (⟨"[s].[t]".toList, "c".toList, "varchar".toList, 6,
        ["1".toList, "NULL".toList, "3".toList, "4".toList, "5".toList]⟩
          : MatchRecord).sample_values.length ≤ 5)
    ∧ (∃ r ∈ (search_in_table ⟨"s".toList, "t".toList,
        some [⟨"c".toList, "varchar".toList, false,
          [some ("1".toList), none, some ("3".toList), some ("4".toList),
            some ("5".toList), some ("6".toList)], false⟩], false, false⟩).1,
        r.column = "c".toList ∧ r.match_count = 6 ∧ r.sample_values.length = 5)
    ∧ (scan_column ("s".toList) ("t".toList)
        ⟨"e".toList, "int".toList, false, [], false⟩).1 = none := by
  refine ⟨?_, ?_, ?_⟩
  · exact C5_record_invariants.1
      ⟨"s".toList, "t".toList,
        some [⟨"c".toList, "varchar".toList, false,
          [some ("1".toList), none, some ("3".toList), some ("4".toList),
            some ("5".toList), some ("6".toList)], false⟩], false, false⟩
      ⟨"[s].[t]".toList, "c".toList, "varchar".toList, 6,
        ["1".toList, "NULL".toList, "3".toList, "4".toList, "5".toList]⟩
      (by decide)
  · exact C5_record_invariants.2.1
      ⟨"s".toList, "t".toList,
        some [⟨"c".toList, "varchar".toList, false,
          [some ("1".toList), none, some ("3".toList), some ("4".toList),
            some ("5".toList), some ("6".toList)], false⟩], false, false⟩
      [⟨"c".toList, "varchar".toList, false,
        [some ("1".toList), none, some ("3".toList), some ("4".toList),
          some ("5".toList), some ("6".toList)], false⟩]
      ⟨"c".toList, "varchar".toList, false,
        [some ("1".toList), none, some ("3".toList), some ("4".toList),
          some ("5".toList), some ("6".toList)], false⟩
      rfl rfl (by decide) (by decide) rfl rfl (by decide)
  · exact C5_record_invariants.2.2 ("s".toList) ("t".toList)
      ⟨"e".toList, "int".toList, false, [], false⟩ rfl

/-- Decoding inverts encoding for a list of JSON strings. -/
theorem decode_strings_map (l : List PyStr) : decode_strings (l.map Json.str) = some l := by
  induction l with
  | nil => rfl
  | cons s rest ih => simp [decode_strings, as_str, ih]

/-- Decoding inverts encoding for one MatchRecord. -/
theorem decode_record_encode (r : MatchRecord) :
    decode_record (encode_record r) = some r := by
  obtain ⟨tb, cl, dt, mc, sv⟩ := r
  simp +decide [encode_record, decode_record, get_field, as_str, as_nat, as_arr,
    decode_strings_map]
  rw [if_neg (by omega : ¬((mc : Int) < 0))]
  rfl

/-- Decoding inverts encoding for a list of MatchRecords. -/
theorem decode_records_map (rs : List MatchRecord) :
    decode_records (rs.map encode_record) = some rs := by
  induction rs with
  | nil => rfl
  | cons r rest ih => simp [decode_records, decode_record_encode, ih]

/-- C8: serializing a result list into the output JSON document and parsing
the document back yields the same total_matches — equal to the number of
MatchRecords — and the original record array, order preserved. -/
theorem C8_json_round_trip (search_value timestamp : PyStr)
    (results : List MatchRecord) :
    parse_output (output_data search_value timestamp results)
      = some (results.length, results) := by
  simp +decide [output_data, parse_output, get_field, as_nat, as_arr,
    decode_records_map]
  rw [if_neg (by omega : ¬((results.length : Int) < 0))]
  rfl
